import Mathlib

/-!
Verification development for the doc-search gap-analysis pipeline.
Strings from the Python source are modelled as lists of characters so that
every operation is a structurally recursive, kernel-evaluable function.
Python str.strip is modelled by stripping the four ASCII whitespace
characters recognised by Char.isWhitespace; Python regex classes \s and \d
are modelled by Char.isWhitespace and Char.isDigit (ASCII fragment).
-/

/-- Strings of the modelled program: lists of characters. -/
abbrev Str := List Char

/-- Does the first list lead the second (literal, case-sensitive)?
Models a Python startswith check used for literal regex fragments. -/
def leadsWith : Str → Str → Bool
  | [], _ => true
  | _ :: _, [] => false
  | a :: as, b :: bs => a == b && leadsWith as bs

/-- Case-insensitive character equality, models re.IGNORECASE matching. -/
def ciEq (a b : Char) : Bool := a.toLower == b.toLower

/-- Case-insensitive version of leadsWith. -/
def ciLeads : Str → Str → Bool
  | [], _ => true
  | _ :: _, [] => false
  | a :: as, b :: bs => ciEq a b && ciLeads as bs

/-- Python substring containment, the case-sensitive in operator. -/
def hasSub : Str → Str → Bool
  | n, [] => n.isEmpty
  | n, h :: t => leadsWith n (h :: t) || hasSub n t

/-- Python str.strip: drop whitespace from both ends. -/
def stripL (l : Str) : Str :=
  ((l.dropWhile Char.isWhitespace).reverse.dropWhile Char.isWhitespace).reverse

/-- Python sep.join for a list of strings. -/
def joinSep (sep : Str) : List Str → Str
  | [] => []
  | [x] => x
  | x :: y :: xs => x ++ sep ++ joinSep sep (y :: xs)

/-- Decimal rendering of a natural number, models Python str(n). -/
def natStr (n : Nat) : Str := (Nat.repr n).toList

/-- Worker for splitLA: acc is the reversed current piece. -/
def splitLAgo (p : Str → Bool) : Str → Str → List Str
  | acc, [] => [acc.reverse]
  | acc, c :: cs =>
    if c == '\n' && p cs then acc.reverse :: splitLAgo p [] cs
    else splitLAgo p (c :: acc) cs

/-- re.split on a newline followed by a lookahead p: the newline is the
consumed delimiter, the lookahead is not consumed.  Models the three
re.split calls of InternalPolicyAuditorAgent._parse_mandates
(src/agents.py lines 239-247). -/
def splitLA (p : Str → Bool) (l : Str) : List Str := splitLAgo p [] l

/-- Lookahead of splitting strategy 1 (src/agents.py line 239): the regex
fragment of one-or-more digits then a period.  The period is not a digit,
so the fragment matches exactly when the maximal digit run is non-empty
and is followed by a period. -/
def numLA (rest : Str) : Bool :=
  let ds := rest.takeWhile Char.isDigit
  !ds.isEmpty && ((rest.drop ds.length).head? == some '.')

/-- Lookahead of splitting strategy 2 (src/agents.py line 243): the literal
mandate field marker, case-sensitive (no IGNORECASE flag on that call). -/
def fieldLA (rest : Str) : Bool := leadsWith ("**Mandate:".toList) rest

/-- Lookahead of splitting strategy 3 (src/agents.py line 247): either
spelling of the mandate header under IGNORECASE, i.e. a case-insensitive
mandate token. -/
def hdrLA (rest : Str) : Bool := ciLeads ("Mandate".toList) rest

/-- Terminator of the title/category regexes (src/agents.py lines 256-257):
a newline, a double asterisk, or end of input (the dollar anchor also
matches before a trailing newline, which the first case already covers). -/
def termA : Str → Bool
  | [] => true
  | '\n' :: _ => true
  | '*' :: '*' :: _ => true
  | _ => false

/-- Lazy one-or-more of non-newline characters followed by termA, as in the
group of the title/category regexes.  acc holds the reversed group so far;
the group is extended only while the terminator does not yet match, and a
newline is never consumed because termA fires on it first. -/
def lazyA : Str → Str → Option Str
  | acc, [] => if termA [] then some acc.reverse else none
  | acc, c :: cs => if termA (c :: cs) then some acc.reverse else lazyA (c :: acc) cs

/-- One backtracking attempt of the title/category tail at a fixed length of
the greedy whitespace prefix: the group must start with a non-newline
character. -/
def tryA1 (s : Str) (wsLen : Nat) : Option Str :=
  match s.drop wsLen with
  | [] => none
  | c :: cs => if c == '\n' then none else lazyA [c] cs

/-- Greedy whitespace backtracking for the title/category tail: longest
whitespace prefix first, shrinking on failure, as the regex engine does. -/
def tryWsA (s : Str) : Nat → Option Str
  | 0 => tryA1 s 0
  | w + 1 =>
    match tryA1 s (w + 1) with
    | some g => some g
    | none => tryWsA s w

/-- Match of the tail of the title/category regexes right after the field
marker: whitespace star, then a lazy non-empty group, then termA.
Returns the captured group before stripping. -/
def matchTailA (s : Str) : Option Str :=
  tryWsA s ((s.takeWhile Char.isWhitespace).length)

/-- Terminator of the requirement/specifics regexes (src/agents.py lines
258-259): newline plus double asterisk, blank line, or the dollar anchor
(end of input, or just before a trailing newline). -/
def termB : Str → Bool
  | [] => true
  | ['\n'] => true
  | '\n' :: '*' :: '*' :: _ => true
  | '\n' :: '\n' :: _ => true
  | _ => false

/-- Lazy one-or-more of arbitrary characters (DOTALL) followed by termB, as
in the group of the requirement/specifics regexes. -/
def lazyB : Str → Str → Option Str
  | acc, [] => if termB [] then some acc.reverse else none
  | acc, c :: cs => if termB (c :: cs) then some acc.reverse else lazyB (c :: acc) cs

/-- One backtracking attempt of the requirement/specifics tail at a fixed
whitespace prefix length. -/
def tryB1 (s : Str) (wsLen : Nat) : Option Str :=
  match s.drop wsLen with
  | [] => none
  | c :: cs => lazyB [c] cs

/-- Greedy whitespace backtracking for the requirement/specifics tail. -/
def tryWsB (s : Str) : Nat → Option Str
  | 0 => tryB1 s 0
  | w + 1 =>
    match tryB1 s (w + 1) with
    | some g => some g
    | none => tryWsB s w

/-- Match of the tail of the requirement/specifics regexes right after the
field marker. -/
def matchTailB (s : Str) : Option Str :=
  tryWsB s ((s.takeWhile Char.isWhitespace).length)

/-- re.search for a pattern consisting of a case-insensitive literal marker
followed by a tail matcher: scan start positions left to right, and at each
occurrence of the marker try the tail; on tail failure continue scanning.
Returns group 1 of the leftmost successful match. -/
def searchF (marker : Str) (tail : Str → Option Str) : Str → Option Str
  | [] => none
  | c :: cs =>
    if ciLeads marker (c :: cs) then
      match tail ((c :: cs).drop marker.length) with
      | some g => some g
      | none => searchF marker tail cs
    else searchF marker tail cs

/-- Group of the title regex of src/agents.py line 256, applied to a block. -/
def titleG (b : Str) : Option Str := searchF ("**Mandate:**".toList) matchTailA b

/-- Group of the category regex of src/agents.py line 257. -/
def categoryG (b : Str) : Option Str := searchF ("**Category:**".toList) matchTailA b

/-- Group of the requirement regex of src/agents.py line 258. -/
def requirementG (b : Str) : Option Str := searchF ("**Requirement:**".toList) matchTailB b

/-- Group of the specifics regex of src/agents.py line 259. -/
def specificsG (b : Str) : Option Str := searchF ("**Specifics:**".toList) matchTailB b

/-- A parsed mandate record, the dictionary built by _parse_mandates. -/
structure MandateB where
  title : Str
  category : Str
  requirement : Str
  specifics : Str
  full_text : Str
deriving DecidableEq, Repr, Inhabited

/-- Field extraction for one block (src/agents.py lines 253-278): structured
branch when a title or requirement field is locatable, otherwise the
unstructured fallback whose title is the text before the first period
(element zero of the period split) truncated to 100 characters. -/
def parseBlock (b : Str) : MandateB :=
  if (titleG b).isSome || (requirementG b).isSome then
    { title := match titleG b with
        | some g => stripL g
        | none => stripL (b.take 100)
      category := match categoryG b with
        | some g => stripL g
        | none => "Uncategorized".toList
      requirement := match requirementG b with
        | some g => stripL g
        | none => []
      specifics := match specificsG b with
        | some g => stripL g
        | none => []
      full_text := stripL b }
  else
    { title := stripL ((b.takeWhile (fun ch => ch != '.')).take 100)
      category := "Uncategorized".toList
      requirement := stripL b
      specifics := []
      full_text := stripL b }

/-- The block loop of _parse_mandates (src/agents.py lines 249-278): a block
whose stripped text is empty or shorter than 50 characters is skipped. -/
def parseBlocksLoop : List Str → List MandateB
  | [] => []
  | b :: bs =>
    if (stripL b).isEmpty || (stripL b).length < 50 then parseBlocksLoop bs
    else parseBlock b :: parseBlocksLoop bs

/-- The sentinel substring checked by _parse_mandates line 234 and by the
auditor line 115. -/
def sentinelStr : Str := "No actionable mandates".toList

/-- Strategy cascade of _parse_mandates (src/agents.py lines 238-247): each
later strategy is used only when the current block list has at most one
element. -/
def selectBlocks (text : Str) : List Str :=
  let b1 := splitLA numLA text
  if 1 < b1.length then b1
  else
    let b2 := splitLA fieldLA text
    if 1 < b2.length then b2
    else splitLA hdrLA text

/-- InternalPolicyAuditorAgent._parse_mandates (src/agents.py 226-280). -/
def parseMandates (text : Str) : List MandateB :=
  if hasSub sentinelStr text then []
  else parseBlocksLoop (selectBlocks text)

/-- Index/value pairs starting at a given id, models numpy arange pairing of
ids with stored vectors. -/
def idxPairs : Nat → List α → List (Nat × α)
  | _, [] => []
  | i, a :: as => (i, a) :: idxPairs (i + 1) as

/-- Insertion step of a deterministic sort. -/
def insertBy (le : α → α → Bool) (a : α) : List α → List α
  | [] => [a]
  | b :: bs => if le a b then a :: b :: bs else b :: insertBy le a bs

/-- Deterministic insertion sort, used to rank stored vectors by distance. -/
def sortBy (le : α → α → Bool) : List α → List α
  | [] => []
  | a :: as => insertBy le a (sortBy le as)

/-- Squared Euclidean distance between two vectors, exact arithmetic model of
the faiss IndexFlatL2 metric. -/
def distKey (q v : List Int) : Int :=
  (List.zipWith (fun x y => (x - y) * (x - y)) v q).foldr (· + ·) 0

/-- Ranking order of faiss flat search: ascending distance, ties broken by
ascending id (the stable scan order of a flat index). -/
def idLe (q : List Int) (a b : Nat × List Int) : Bool :=
  distKey q a.2 < distKey q b.2 ||
    (distKey q a.2 == distKey q b.2 && a.1 ≤ b.1)

/-- Model of faiss IndexFlatL2 wrapped in IndexIDMap with ids 0..n-1
(src/document_processor.py lines 50-52) answering a single query
(src/agents.py line 141): the k nearest stored ids by ascending distance.
Per the documented faiss behavior, when fewer than k vectors are stored the
label array is padded with the sentinel id -1 up to length k; in particular
an empty index returns k sentinel labels and does not raise. -/
def faissSearch (stored : List (List Int)) (q : List Int) (k : Nat) : List Int :=
  let order := sortBy (idLe q) (idxPairs 0 stored)
  let top := (order.take k).map (fun p => (Int.ofNat p.1))
  top ++ List.replicate (k - top.length) (-1)

/-- Python list indexing, as in text_chunks[i] at src/agents.py line 143:
non-negative indices in range succeed, a negative index counts from the end,
anything else raises IndexError (modelled as an error value). -/
def pyGet (l : List α) (i : Int) : Except Str α :=
  if 0 ≤ i then
    match l.get? i.toNat with
    | some a => .ok a
    | none => .error ("list index out of range".toList)
  else
    match l.get? (l.length - (-i).toNat) with
    | some a => if (-i).toNat ≤ l.length then .ok a else .error ("list index out of range".toList)
    | none => .error ("list index out of range".toList)

/-- Fallback context when retrieval fails (src/agents.py line 147). -/
def noPolicyMsg : Str := "No relevant internal policies found.".toList

/-- The section break joining retrieved chunks (src/agents.py line 144). -/
def sectionBreak : Str := "\n\n===SECTION BREAK===\n\n".toList

/-- Context construction of the auditor loop (src/agents.py lines 139-147):
search the store with k = 5, look each returned label up in the chunk list,
and join; any lookup failure is caught and degrades to the fixed fallback
string. -/
def contextFor (chunks : List Str) (stored : List (List Int)) (qv : List Int) : Str :=
  match (faissSearch stored qv 5).mapM (pyGet chunks) with
  | .ok cs => joinSep sectionBreak cs
  | .error _ => noPolicyMsg

/-- The retrieval query of src/agents.py line 135: title, requirement and
specifics joined by single spaces. -/
def queryOf (m : MandateB) : Str :=
  m.title ++ (' ' :: m.requirement) ++ (' ' :: m.specifics)

/-- A line of 80 equals signs as produced by the Python repetition operator. -/
def eqLine : Str := List.replicate 80 '='

/-- The substituted analysis when the model reply is empty or implausibly
short (src/agents.py line 198). -/
def insufficientMsg : Str := "Error: LLM returned insufficient analysis.".toList

/-- The full finding template of src/agents.py lines 201-216. -/
def fullFinding (idx : Nat) (m : MandateB) (analysis : Str) : Str :=
  ('\n' :: eqLine) ++ ("\nMANDATE ".toList) ++ natStr idx ++ (": ".toList) ++ m.title ++
  ('\n' :: eqLine) ++ ("\n\n**Category:** ".toList) ++ m.category ++
  ("\n\n**Regulatory Requirement:**\n".toList) ++ m.requirement ++
  ("\n\n**Specifics:**\n".toList) ++ m.specifics ++
  ("\n\n**GAP ANALYSIS:**\n".toList) ++ analysis ++ ['\n']

/-- The per-mandate error record of src/agents.py line 222. -/
def errFinding (idx : Nat) (m : MandateB) (e : Str) : Str :=
  ("**Mandate ".toList) ++ natStr idx ++ (":** ".toList) ++ m.title ++
  ("\n**Error:** Could not complete analysis - ".toList) ++ e

/-- One iteration of the auditor loop body (src/agents.py lines 193-222).
The generation collaborator is an oracle from the 1-based mandate index and
the retrieved context to either a reply or a raised exception message; a
reply that is empty or under 50 characters after stripping is replaced by
the explicit insufficient-analysis error, and an exception becomes the
per-mandate error record. -/
def findingFor (gen : Nat → Str → Except Str Str) (ctx : Str) (idx : Nat) (m : MandateB) : Str :=
  match gen idx ctx with
  | .ok r =>
    fullFinding idx m (if r.isEmpty || (stripL r).length < 50 then insufficientMsg else r)
  | .error e => errFinding idx m e

/-- The findings loop of InternalPolicyAuditorAgent.run (src/agents.py lines
119-223), enumerating mandates from a starting index and appending exactly
one finding per mandate, catching per-mandate exceptions and continuing. -/
def auditorLoop (gen : Nat → Str → Except Str Str) (embed : Str → List Int)
    (chunks : List Str) (stored : List (List Int)) : Nat → List MandateB → List Str
  | _, [] => []
  | idx, m :: ms =>
    findingFor gen (contextFor chunks stored (embed (queryOf m))) idx m ::
      auditorLoop gen embed chunks stored (idx + 1) ms

/-- Early-exit error of src/agents.py line 109. -/
def noMandatesErr : Str := "Error: No mandates were extracted from the regulation.".toList

/-- Prefix of the unparseable-output reply of src/agents.py line 126. -/
def noParseMsg : Str := "No mandates could be parsed for analysis. Raw output:\n\n".toList

/-- InternalPolicyAuditorAgent.run (src/agents.py lines 100-224).  Returns
the produced text together with the number of generation calls issued.
Guards in source order: empty or under-50 mandates text, an Error marker in
the first 100 characters (pass-through), the no-actionable-mandates sentinel
(pass-through), an empty parse; otherwise the findings of the loop joined by
blank lines, one generation call per mandate. -/
def auditorRun (gen : Nat → Str → Except Str Str) (embed : Str → List Int)
    (chunks : List Str) (stored : List (List Int)) (text : Str) : Str × Nat :=
  if text.isEmpty || (stripL text).length < 50 then (noMandatesErr, 0)
  else if hasSub ("Error".toList) (text.take 100) then (text, 0)
  else if hasSub sentinelStr text then (text, 0)
  else
    let ms := parseMandates text
    if ms.isEmpty then (noParseMsg ++ text.take 1000, 0)
    else (joinSep ("\n\n".toList) (auditorLoop gen embed chunks stored 1 ms), ms.length)

/-- Fail-fast error of RegulationAnalystAgent.run (src/agents.py line 38). -/
def errTooShort : Str := "Error: Regulation document appears to be empty or unreadable.".toList

/-- Invalid-analysis error of RegulationAnalystAgent.run (line 83). -/
def errInvalidAnalysis : Str :=
  "Error: LLM did not provide a valid analysis. The document may be too complex or the API may have failed.".toList

/-- RegulationAnalystAgent.run (src/agents.py lines 29-96), with the
generation collaborator as an oracle; the pair carries the number of
generation calls issued.  Empty or under-100-character (after stripping)
regulation text fails fast before any call; prompt truncation at 100000
characters only affects the prompt, which the oracle abstracts.  A reply
carrying an Error marker in its first 100 characters is returned as is,
like any other sufficiently long reply. -/
def analystRun (gen : Except Str Str) (text : Str) : Str × Nat :=
  if text.isEmpty || (stripL text).length < 100 then (errTooShort, 0)
  else
    match gen with
    | .ok r =>
      if r.isEmpty || (stripL r).length < 50 then (errInvalidAnalysis, 1)
      else if hasSub ("Error".toList) (r.take 100) then (r, 1)
      else (r, 1)
    | .error e => (("Error analyzing regulation: ".toList) ++ e, 1)

/-- Split on blank-line boundaries: the Python str.split with separator two
newlines, non-overlapping left to right (src/document_processor.py line 30).
acc is the reversed current piece. -/
def splitPara : Str → Str → List Str
  | acc, [] => [acc.reverse]
  | acc, '\n' :: '\n' :: rest => acc.reverse :: splitPara [] rest
  | acc, c :: cs => splitPara (c :: acc) cs

/-- Chunking of one document (src/document_processor.py line 30): split the
extracted text on blank lines, keep the pieces whose stripped text is
non-empty, and prefix each with a Source marker naming the document. -/
def chunkDoc (docId : Str) (text : Str) : List Str :=
  ((splitPara [] text).filter (fun p => !(stripL p).isEmpty)).map
    (fun p => ("Source: ".toList) ++ docId ++ ("\n\n".toList) ++ stripL p)

/-- load_and_chunk_pdfs (src/document_processor.py lines 21-34) over already
extracted (document identifier, text) pairs: per-document chunks
concatenated in input order. -/
def load_and_chunk (docs : List (Str × Str)) : List Str :=
  (docs.map (fun d => chunkDoc d.1 d.2)).flatten

/-- The index contents built by create_vector_store (lines 49-52): ids
0..n-1 paired positionally with the embeddings of the chunks. -/
def buildIndex (embed : Str → List Int) (chunks : List Str) : List (Nat × List Int) :=
  idxPairs 0 (chunks.map embed)

/-- The two persisted artifacts: the index file and the chunk-list file,
each possibly absent.  faiss write_index/read_index and pickle dump/load
are modelled as exact round-trips per their documented contracts. -/
structure DiskState where
  indexFile : Option (List (Nat × List Int))
  chunksFile : Option (List Str)
deriving DecidableEq, Repr

/-- create_vector_store (src/document_processor.py lines 36-59) given the
already produced chunks: abort without writing when there are no chunks,
otherwise write the id-mapped index and the chunk list as a pair. -/
def create_vector_store (embed : Str → List Int) (chunks : List Str) (d : DiskState) : DiskState :=
  if chunks.isEmpty then d
  else { indexFile := some (buildIndex embed chunks), chunksFile := some chunks }

/-- load_vector_store (src/document_processor.py lines 61-71): when either
file is missing return the absent pair, otherwise read both. -/
def load_vector_store (d : DiskState) : Option (List (Nat × List Int)) × Option (List Str) :=
  match d.indexFile, d.chunksFile with
  | some i, some c => (some i, some c)
  | _, _ => (none, none)

/-- One regulation record consumed by the consolidated report
(src/agents.py lines 284-291). -/
structure RegData where
  title : Str
  url : Str
  date : Str
  file_name : Str
  mandates : Str
  gap_analysis : Str
deriving DecidableEq, Repr

/-- The numbered summary lines of the fallback report (src/agents.py line
419), enumerating regulations from a 1-based display index. -/
def regLines : Nat → List RegData → List Str
  | _, [] => []
  | i, r :: rs =>
    (natStr i ++ (". ".toList) ++ r.title ++ (" - ".toList) ++ r.file_name) :: regLines (i + 1) rs

/-- The deterministic fallback report of src/agents.py lines 416-421,
listing every regulation title and file name. -/
def fallbackReport (regs : List RegData) : Str :=
  ("ERROR: Could not generate comprehensive report.\n\nSummary of regulations analyzed:\n".toList) ++
  joinSep ['\n'] (regLines 1 regs) ++
  ("\n\nPlease review the detailed findings in the appendices below.".toList)

/-- ComplianceReportAgent.run_consolidated (src/agents.py lines 284-430)
with the generation collaborator as an oracle: a missing or under-100
character reply (after stripping) is replaced by the deterministic fallback
summary; a raised exception becomes the explicit error report. -/
def run_consolidated (gen : Except Str Str) (regs : List RegData) : Str :=
  match gen with
  | .ok r =>
    if r.isEmpty || (stripL r).length < 100 then fallbackReport regs else r
  | .error e => ("Error generating consolidated report: ".toList) ++ e

theorem idxPairs_getElem? {α : Type} (l : List α) :
    ∀ (j i : Nat), (idxPairs j l)[i]? = l[i]?.map (fun a => (j + i, a)) := by
  induction l with
  | nil => intro j i; simp [idxPairs]
  | cons a as ih =>
    intro j i
    cases i with
    | zero => simp [idxPairs]
    | succ n =>
      have e : j + 1 + n = j + (n + 1) := by omega
      simp [idxPairs, ih (j + 1) n, e]

theorem idxPairs_length {α : Type} (l : List α) : ∀ j, (idxPairs j l).length = l.length := by
  induction l with
  | nil => intro j; simp [idxPairs]
  | cons a as ih => intro j; simp [idxPairs, ih]

theorem idxPairs_fst_lt {α : Type} (l : List α) :
    ∀ j p, p ∈ idxPairs j l → p.1 < j + l.length := by
  induction l with
  | nil => intro j p h; simp [idxPairs] at h
  | cons a as ih =>
    intro j p h
    simp only [idxPairs, List.mem_cons] at h
    rcases h with h | h
    · subst h; simp
    · have := ih (j + 1) p h
      simp only [List.length_cons]
      omega

/-- C8. Loading the persisted pair when either file is missing returns the
absent sentinel pair rather than raising, and a successful load always
returns the index and the chunk list together, never one without the
other. -/
theorem c8_load_absent_pair (d : DiskState) :
    ((d.indexFile = none ∨ d.chunksFile = none) → load_vector_store d = (none, none)) ∧
    (load_vector_store d = (none, none) ∨
      ∃ i c, load_vector_store d = (some i, some c) ∧
        d.indexFile = some i ∧ d.chunksFile = some c) := by
  obtain ⟨i, c⟩ := d
  cases i <;> cases c <;> simp [load_vector_store]

theorem c8_load_absent_pair_witness :
    load_vector_store ⟨none, some []⟩ = (none, none) ∧
    (load_vector_store (⟨some [], some []⟩ : DiskState) = (none, none) ∨
      ∃ i c, load_vector_store (⟨some [], some []⟩ : DiskState) = (some i, some c) ∧
        (⟨some [], some []⟩ : DiskState).indexFile = some i ∧
        (⟨some [], some []⟩ : DiskState).chunksFile = some c) :=
  ⟨(c8_load_absent_pair ⟨none, some []⟩).1 (Or.inl rfl),
   (c8_load_absent_pair ⟨some [], some []⟩).2⟩

/-- C6. For a non-empty chunk sequence, persisting the built index and the
chunks and loading them back round-trips exactly: the loaded chunk list is
the input, and id i of the loaded index is paired with the embedding of the
chunk at position i (ids 0..n-1 equal to chunk position). -/
theorem c6_store_roundtrip (embed : Str → List Int) (chunks : List Str) (d : DiskState)
    (h : chunks ≠ []) :
    load_vector_store (create_vector_store embed chunks d) =
      (some (buildIndex embed chunks), some chunks) ∧
    ∀ i (hi : i < chunks.length),
      (buildIndex embed chunks)[i]? = some (i, embed (chunks.get ⟨i, hi⟩)) := by
  constructor
  · have he : chunks.isEmpty = false := by
      cases chunks with
      | nil => cases h rfl
      | cons a as => rfl
    simp [create_vector_store, load_vector_store, he]
  · intro i hi
    unfold buildIndex
    rw [idxPairs_getElem? (chunks.map embed) 0 i]
    have : (chunks.map embed)[i]? = some (embed (chunks.get ⟨i, hi⟩)) := by
      simp [List.getElem?_map, List.getElem?_eq_getElem hi]
    simp [this]

theorem c6_store_roundtrip_witness :
    load_vector_store (create_vector_store (fun _ => [(0 : Int)]) ["ab".toList] ⟨none, none⟩) =
      (some (buildIndex (fun _ => [(0 : Int)]) ["ab".toList]), some ["ab".toList]) ∧
    (buildIndex (fun _ => [(0 : Int)]) ["ab".toList])[0]? = some (0, [(0 : Int)]) := by
  refine ⟨(c6_store_roundtrip (fun _ => [(0 : Int)]) ["ab".toList] ⟨none, none⟩ (by decide)).1, ?_⟩
  have := (c6_store_roundtrip (fun _ => [(0 : Int)]) ["ab".toList] ⟨none, none⟩ (by decide)).2
    0 (by decide)
  simpa using this

/-- C4. A regulation text whose stripped length is under 100 characters
makes the Mandate Extractor fail fast with its descriptive error and zero
generation calls, and the Gap Analyzer receiving that error result returns
the identical error text unchanged with zero retrieval or generation
calls. -/
theorem c4_short_regulation_passthrough (gen : Except Str Str)
    (genA : Nat → Str → Except Str Str) (embed : Str → List Int)
    (chunks : List Str) (stored : List (List Int)) (text : Str)
    (h : (stripL text).length < 100) :
    analystRun gen text = (errTooShort, 0) ∧
    auditorRun genA embed chunks stored errTooShort = (errTooShort, 0) := by
  constructor
  · unfold analystRun
    rw [if_pos]
    simp [h]
  · rfl

theorem c4_short_regulation_passthrough_witness :
    analystRun (.error []) ("short".toList) = (errTooShort, 0) ∧
    auditorRun (fun _ _ => .error []) (fun _ => []) [] [] errTooShort = (errTooShort, 0) :=
  c4_short_regulation_passthrough (.error []) (fun _ _ => .error []) (fun _ => []) [] []
    ("short".toList) (by decide)

theorem mem_infix_joinSep {sep : Str} {parts : List Str} {s : Str} (h : s ∈ parts) :
    s <:+: joinSep sep parts := by
  induction parts with
  | nil => cases h
  | cons x xs ih =>
    cases xs with
    | nil =>
      have : s = x := by simpa using h
      subst this
      exact List.infix_rfl
    | cons y ys =>
      rcases List.mem_cons.mp h with h1 | h2
      · subst h1
        exact ⟨[], sep ++ joinSep sep (y :: ys), by simp [joinSep, List.append_assoc]⟩
      · exact (ih h2).trans ⟨x ++ sep, [], by simp [joinSep, List.append_assoc]⟩

theorem regLines_mem {regs : List RegData} {reg : RegData} (h : reg ∈ regs) :
    ∀ i, ∃ j,
      (natStr j ++ (". ".toList) ++ reg.title ++ (" - ".toList) ++ reg.file_name) ∈
        regLines i regs := by
  induction regs with
  | nil => cases h
  | cons r rs ih =>
    intro i
    rcases List.mem_cons.mp h with h1 | h2
    · subst h1
      exact ⟨i, List.mem_cons_self _ _⟩
    · obtain ⟨j, hj⟩ := ih h2 (i + 1)
      exact ⟨j, List.mem_cons_of_mem _ hj⟩

/-- C7. A consolidated-report generation reply that is missing or shorter
than 100 characters after stripping is replaced by the deterministic
fallback summary, that summary lists every regulation title and file name,
and the returned report text is never empty on any oracle outcome. -/
theorem c7_report_never_blank (regs : List RegData) :
    (∀ r, (stripL r).length < 100 → run_consolidated (.ok r) regs = fallbackReport regs) ∧
    (∀ reg, reg ∈ regs →
      reg.title <:+: fallbackReport regs ∧ reg.file_name <:+: fallbackReport regs) ∧
    (∀ g, run_consolidated g regs ≠ []) := by
  refine ⟨?_, ?_, ?_⟩
  · intro r h
    simp [run_consolidated, h]
  · intro reg hreg
    obtain ⟨j, hj⟩ := regLines_mem hreg 1
    have hline : _ <:+: joinSep ['\n'] (regLines 1 regs) := mem_infix_joinSep hj
    have hjoin : joinSep ['\n'] (regLines 1 regs) <:+: fallbackReport regs :=
      ⟨("ERROR: Could not generate comprehensive report.\n\nSummary of regulations analyzed:\n".toList),
       ("\n\nPlease review the detailed findings in the appendices below.".toList),
       by simp [fallbackReport, List.append_assoc]⟩
    constructor
    · have ht : reg.title <:+:
          (natStr j ++ (". ".toList) ++ reg.title ++ (" - ".toList) ++ reg.file_name) :=
        ⟨natStr j ++ (". ".toList), (" - ".toList) ++ reg.file_name, by simp [List.append_assoc]⟩
      exact (ht.trans hline).trans hjoin
    · have hf : reg.file_name <:+:
          (natStr j ++ (". ".toList) ++ reg.title ++ (" - ".toList) ++ reg.file_name) :=
        ⟨natStr j ++ (". ".toList) ++ reg.title ++ (" - ".toList), [],
          by simp [List.append_assoc]⟩
      exact (hf.trans hline).trans hjoin
  · intro g
    cases g with
    | error e => simp [run_consolidated]
    | ok r =>
      by_cases h : (r.isEmpty || decide ((stripL r).length < 100)) = true
      · simp only [run_consolidated, h, if_true]
        simp [fallbackReport]
      · simp only [run_consolidated, h]
        simp only [Bool.or_eq_true, not_or] at h
        intro hc
        subst hc
        exact h.1 rfl

theorem c7_report_never_blank_witness :
    run_consolidated (.ok []) [⟨"Reg One".toList, [], [], "r1.pdf".toList, [], []⟩] =
      fallbackReport [⟨"Reg One".toList, [], [], "r1.pdf".toList, [], []⟩] ∧
    ("Reg One".toList) <:+:
      fallbackReport [⟨"Reg One".toList, [], [], "r1.pdf".toList, [], []⟩] ∧
    ("r1.pdf".toList) <:+:
      fallbackReport [⟨"Reg One".toList, [], [], "r1.pdf".toList, [], []⟩] ∧
    run_consolidated (.error []) [⟨"Reg One".toList, [], [], "r1.pdf".toList, [], []⟩] ≠ [] := by
  refine ⟨(c7_report_never_blank _).1 [] (by decide), ?_, ?_, (c7_report_never_blank _).2.2 _⟩
  · exact ((c7_report_never_blank _).2.1 ⟨"Reg One".toList, [], [], "r1.pdf".toList, [], []⟩
      (by simp)).1
  · exact ((c7_report_never_blank _).2.1 ⟨"Reg One".toList, [], [], "r1.pdf".toList, [], []⟩
      (by simp)).2

/-- C5. The Chunker splits each document on blank-line boundaries, keeps
exactly the segments whose stripped text is non-empty, prefixes each kept
segment with a Source marker naming its document, concatenates documents in
input order, and being a pure function is deterministic on identical
input. -/
theorem c5_chunker_counts (docs : List (Str × Str)) :
    (load_and_chunk docs).length =
      ((docs.map (fun d =>
        ((splitPara [] d.2).filter (fun p => !(stripL p).isEmpty)).length)).sum) ∧
    (∀ d ds, load_and_chunk (d :: ds) = chunkDoc d.1 d.2 ++ load_and_chunk ds) ∧
    (∀ c, c ∈ load_and_chunk docs → ∃ d, d ∈ docs ∧ ∃ p, p ∈ splitPara [] d.2 ∧
      (stripL p).isEmpty = false ∧
      c = ("Source: ".toList) ++ d.1 ++ ("\n\n".toList) ++ stripL p) := by
  refine ⟨?_, ?_, ?_⟩
  · simp only [load_and_chunk, List.length_flatten, List.map_map]
    congr 1
    apply List.map_congr_left
    intro d _
    simp [Function.comp, chunkDoc, List.length_map]
  · intro d ds
    simp [load_and_chunk]
  · intro c hc
    simp only [load_and_chunk, List.mem_flatten, List.mem_map] at hc
    obtain ⟨l, ⟨d, hd, hl⟩, hcl⟩ := hc
    subst hl
    simp only [chunkDoc, List.mem_map, List.mem_filter] at hcl
    obtain ⟨p, ⟨hp, hne⟩, hcp⟩ := hcl
    exact ⟨d, hd, p, hp, by simpa using hne, hcp.symm⟩

theorem c5_chunker_counts_witness :
    (load_and_chunk [("a.pdf".toList, "One para\n\n   \n\nTwo para".toList)]).length =
      (([("a.pdf".toList, "One para\n\n   \n\nTwo para".toList)].map (fun d =>
        ((splitPara [] d.2).filter (fun p => !(stripL p).isEmpty)).length)).sum) ∧
    load_and_chunk (("a.pdf".toList, "One para\n\n   \n\nTwo para".toList) :: []) =
      chunkDoc ("a.pdf".toList) ("One para\n\n   \n\nTwo para".toList) ++ load_and_chunk [] ∧
    (∃ d, d ∈ [("a.pdf".toList, "One para\n\n   \n\nTwo para".toList)] ∧
      ∃ p, p ∈ splitPara [] d.2 ∧ (stripL p).isEmpty = false ∧
      ("Source: a.pdf\n\nOne para".toList) =
        ("Source: ".toList) ++ d.1 ++ ("\n\n".toList) ++ stripL p) :=
  ⟨(c5_chunker_counts [("a.pdf".toList, "One para\n\n   \n\nTwo para".toList)]).1,
   (c5_chunker_counts [("a.pdf".toList, "One para\n\n   \n\nTwo para".toList)]).2.1
     ("a.pdf".toList, "One para\n\n   \n\nTwo para".toList) [],
   (c5_chunker_counts [("a.pdf".toList, "One para\n\n   \n\nTwo para".toList)]).2.2
     ("Source: a.pdf\n\nOne para".toList) (by decide)⟩

/-- C9 counterexample. The exact sentinel string alone contains the
substring, yet the Gap Analyzer does not return the input unchanged: its
stripped length is below 50, so the under-50 guard fires first and the
generic no-mandates error is returned instead. -/
theorem c9_short_sentinel_not_passthrough :
    hasSub sentinelStr ("No actionable mandates".toList) = true ∧
    auditorRun (fun _ _ => .error []) (fun _ => []) [] []
      ("No actionable mandates".toList) = (noMandatesErr, 0) ∧
    ¬ (auditorRun (fun _ _ => .error []) (fun _ => []) [] []
        ("No actionable mandates".toList)).1 = ("No actionable mandates".toList) := by
  refine ⟨by decide, by decide, by decide⟩

/-- C9 amended. A mandates text containing the case-sensitive sentinel
substring always parses to zero records and triggers zero retrieval or
generation calls; the Gap Analyzer returns the input unchanged when the
stripped input is at least 50 characters (even when structured blocks are
also present), and returns the fixed no-mandates error when it is
shorter. -/
theorem c9_sentinel_short_circuit (gen : Nat → Str → Except Str Str)
    (embed : Str → List Int) (chunks : List Str) (stored : List (List Int))
    (text : Str) (h : hasSub sentinelStr text = true) :
    parseMandates text = [] ∧
    (auditorRun gen embed chunks stored text).2 = 0 ∧
    (50 ≤ (stripL text).length → auditorRun gen embed chunks stored text = (text, 0)) ∧
    ((stripL text).length < 50 → auditorRun gen embed chunks stored text = (noMandatesErr, 0)) := by
  have hp : parseMandates text = [] := by simp [parseMandates, h]
  have hlong : 50 ≤ (stripL text).length →
      auditorRun gen embed chunks stored text = (text, 0) := by
    intro hl
    have hnot : (text.isEmpty || decide ((stripL text).length < 50)) = false := by
      have : ¬ (stripL text).length < 50 := by omega
      cases he : text.isEmpty with
      | true =>
        exfalso
        have : text = [] := by
          cases text with
          | nil => rfl
          | cons a as => simp [List.isEmpty] at he
        subst this
        simp [stripL] at hl
      | false => simp [this]
    unfold auditorRun
    rw [if_neg (by rw [hnot]; simp)]
    by_cases he : hasSub ("Error".toList) (text.take 100) = true
    · rw [if_pos he]
    · rw [if_neg he, if_pos h]
  have hshort : (stripL text).length < 50 →
      auditorRun gen embed chunks stored text = (noMandatesErr, 0) := by
    intro hs
    unfold auditorRun
    rw [if_pos (by simp [hs])]
  refine ⟨hp, ?_, hlong, hshort⟩
  by_cases hl : 50 ≤ (stripL text).length
  · rw [hlong hl]
  · rw [hshort (by omega)]

theorem c9_sentinel_short_circuit_witness :
    parseMandates
      ("No actionable mandates - this is a concept release for public comment only.".toList) = [] ∧
    (auditorRun (fun _ _ => .error []) (fun _ => []) [] []
      ("No actionable mandates - this is a concept release for public comment only.".toList)).2
        = 0 ∧
    auditorRun (fun _ _ => .error []) (fun _ => []) [] []
      ("No actionable mandates - this is a concept release for public comment only.".toList) =
      ("No actionable mandates - this is a concept release for public comment only.".toList, 0) := by
  have h := c9_sentinel_short_circuit (fun _ _ => .error []) (fun _ => []) [] []
    ("No actionable mandates - this is a concept release for public comment only.".toList)
    (by decide)
  exact ⟨h.1, h.2.1, h.2.2.1 (by decide)⟩

theorem insertBy_perm {α : Type} (le : α → α → Bool) (a : α) (l : List α) :
    List.Perm (insertBy le a l) (a :: l) := by
  induction l with
  | nil => simp [insertBy]
  | cons b bs ih =>
    unfold insertBy
    by_cases h : le a b = true
    · rw [if_pos h]
    · rw [if_neg h]
      exact (ih.cons b).trans (List.Perm.swap a b bs)

theorem sortBy_perm {α : Type} (le : α → α → Bool) (l : List α) :
    List.Perm (sortBy le l) l := by
  induction l with
  | nil => simp [sortBy]
  | cons a as ih => exact (insertBy_perm le a (sortBy le as)).trans (ih.cons a)

theorem filter_replicate_none {α : Type} (p : α → Bool) (a : α) (h : p a = false) :
    ∀ n, (List.replicate n a).filter p = [] := by
  intro n
  induction n with
  | zero => rfl
  | succ m ih => simp [List.replicate_succ, List.filter_cons, h, ih]

/-- C2 counterexample. Searching an empty index with k = 5 does not return
an empty result sequence: faiss pads the label array with the sentinel id
-1, so five sentinel labels come back. -/
theorem c2_empty_search_not_empty :
    faissSearch [] [(0 : Int)] 5 = [-1, -1, -1, -1, -1] ∧
    faissSearch [] [(0 : Int)] 5 ≠ [] := by
  refine ⟨by decide, by decide⟩

/-- C2 amended. The search always returns exactly k label slots: at most
min(k, n) of them are stored ids, each a valid position in the chunk list,
and every slot from position min(k, n) on holds the sentinel id -1.  On an
empty index all k slots are the sentinel and no error is raised; the Gap
Analyzer caller then fails its chunk lookup on an empty chunk list, which
is caught and degrades the context to the fixed fallback string. -/
theorem c2_search_clamp_padding (stored : List (List Int)) (q : List Int) (k : Nat) :
    (faissSearch stored q k).length = k ∧
    (∀ x, x ∈ faissSearch stored q k → (0 ≤ x ∧ x.toNat < stored.length) ∨ x = -1) ∧
    ((faissSearch stored q k).filter (fun x => x ≠ -1)).length ≤ min k stored.length ∧
    (∀ j, min k stored.length ≤ j → j < k → (faissSearch stored q k)[j]? = some (-1)) ∧
    (stored = [] → faissSearch stored q k = List.replicate k (-1)) ∧
    contextFor [] [] q = noPolicyMsg := by
  have horder : (sortBy (idLe q) (idxPairs 0 stored)).length = stored.length := by
    rw [(sortBy_perm (idLe q) (idxPairs 0 stored)).length_eq, idxPairs_length]
  have htop : ((sortBy (idLe q) (idxPairs 0 stored)).take k).length = min k stored.length := by
    rw [List.length_take, horder]
  refine ⟨?_, ?_, ?_, ?_, ?_, ?_⟩
  · unfold faissSearch
    simp only [List.length_append, List.length_map, List.length_replicate, htop]
    omega
  · intro x hx
    unfold faissSearch at hx
    rcases List.mem_append.mp hx with hx | hx
    · left
      obtain ⟨p, hp, hpx⟩ := List.mem_map.mp hx
      have hmem : p ∈ sortBy (idLe q) (idxPairs 0 stored) :=
        List.mem_of_mem_take hp
      have hmem2 : p ∈ idxPairs 0 stored :=
        (sortBy_perm (idLe q) (idxPairs 0 stored)).mem_iff.mp hmem
      have hlt := idxPairs_fst_lt stored 0 p hmem2
      subst hpx
      simp
      omega
    · right
      exact List.eq_of_mem_replicate hx
  · unfold faissSearch
    rw [List.filter_append]
    rw [filter_replicate_none _ _ (by decide)]
    simp only [List.append_nil]
    refine le_trans (List.length_filter_le _ _) ?_
    rw [List.length_map, htop]
  · intro j h1 h2
    unfold faissSearch
    rw [List.getElem?_append_right (by simp [htop]; omega)]
    rw [List.getElem?_replicate]
    rw [if_pos (by simp [htop]; omega)]
  · intro h
    subst h
    simp [faissSearch, idxPairs, sortBy]
  · rfl

theorem c2_search_clamp_padding_witness :
    (faissSearch [[(0 : Int)], [(3 : Int)]] [(1 : Int)] 5).length = 5 ∧
    (((faissSearch [[(0 : Int)], [(3 : Int)]] [(1 : Int)] 5).filter
      (fun x => x ≠ -1)).length ≤ min 5 2) ∧
    (faissSearch [[(0 : Int)], [(3 : Int)]] [(1 : Int)] 5)[3]? = some (-1) ∧
    faissSearch ([] : List (List Int)) [(7 : Int)] 5 = List.replicate 5 (-1) ∧
    ((0 ≤ (0 : Int) ∧ (0 : Int).toNat < 2) ∨ (0 : Int) = -1) :=
  ⟨(c2_search_clamp_padding [[0], [3]] [1] 5).1,
   (c2_search_clamp_padding [[0], [3]] [1] 5).2.2.1,
   (c2_search_clamp_padding [[0], [3]] [1] 5).2.2.2.1 3 (by decide) (by decide),
   (c2_search_clamp_padding [] [7] 5).2.2.2.2.1 rfl,
   (c2_search_clamp_padding [[0], [3]] [1] 5).2.1 0 (by decide)⟩

theorem parseBlocksLoop_eq_filter (bs : List Str) :
    parseBlocksLoop bs = (bs.filter (fun b => 50 ≤ (stripL b).length)).map parseBlock := by
  induction bs with
  | nil => rfl
  | cons b rest ih =>
    unfold parseBlocksLoop
    by_cases h : 50 ≤ (stripL b).length
    · have hne : (stripL b).isEmpty = false := by
        cases hsb : stripL b with
        | nil => rw [hsb] at h; simp at h
        | cons x xs => rfl
      rw [if_neg (by simp [hne]; omega)]
      rw [List.filter_cons_of_pos (by simp [h])]
      rw [List.map_cons, ih]
    · rw [if_pos (by simp; omega)]
      rw [List.filter_cons_of_neg (by simp [h])]
      exact ih

/-- C3. The parser tries its three splitting strategies in priority order,
each later one only when the previous left at most one block; with the
sentinel absent, the surviving mandates are exactly the selected blocks
whose stripped text reaches 50 characters, in order; and a block with no
locatable title or requirement field becomes one unstructured mandate whose
requirement is the whole stripped block and whose title is the text before
the first period truncated to 100 characters, then stripped. -/
theorem c3_parse_strategy_cascade (text : Str) :
    (1 < (splitLA numLA text).length → selectBlocks text = splitLA numLA text) ∧
    ((splitLA numLA text).length ≤ 1 → 1 < (splitLA fieldLA text).length →
      selectBlocks text = splitLA fieldLA text) ∧
    ((splitLA numLA text).length ≤ 1 → (splitLA fieldLA text).length ≤ 1 →
      selectBlocks text = splitLA hdrLA text) ∧
    (hasSub sentinelStr text = false →
      parseMandates text =
        ((selectBlocks text).filter (fun b => 50 ≤ (stripL b).length)).map parseBlock) ∧
    (∀ b, titleG b = none → requirementG b = none →
      parseBlock b =
        { title := stripL ((b.takeWhile (fun ch => ch != '.')).take 100)
          category := "Uncategorized".toList
          requirement := stripL b
          specifics := []
          full_text := stripL b }) := by
  refine ⟨?_, ?_, ?_, ?_, ?_⟩
  · intro h
    unfold selectBlocks
    rw [if_pos h]
  · intro h1 h2
    unfold selectBlocks
    rw [if_neg (by omega), if_pos h2]
  · intro h1 h2
    unfold selectBlocks
    rw [if_neg (by omega), if_neg (by omega)]
  · intro h
    unfold parseMandates
    rw [if_neg (by simp [h])]
    exact parseBlocksLoop_eq_filter (selectBlocks text)
  · intro b ht hr
    unfold parseBlock
    rw [ht, hr]
    rfl

theorem c3_parse_strategy_cascade_witness :
    selectBlocks ("a\n1. first block\n2. second block".toList) =
      splitLA numLA ("a\n1. first block\n2. second block".toList) ∧
    selectBlocks ("a\n**Mandate: one\n**Mandate: two".toList) =
      splitLA fieldLA ("a\n**Mandate: one\n**Mandate: two".toList) ∧
    selectBlocks ("plain text with no markers at all".toList) =
      splitLA hdrLA ("plain text with no markers at all".toList) ∧
    parseMandates ("a\n1. first block\n2. second block".toList) =
      (((selectBlocks ("a\n1. first block\n2. second block".toList)).filter
        (fun b => 50 ≤ (stripL b).length)).map parseBlock) ∧
    parseBlock ("An unstructured obligation sentence. With a second sentence after it.".toList) =
      { title := stripL ((("An unstructured obligation sentence. With a second sentence after it.".toList).takeWhile
          (fun ch => ch != '.')).take 100)
        category := "Uncategorized".toList
        requirement := stripL ("An unstructured obligation sentence. With a second sentence after it.".toList)
        specifics := []
        full_text := stripL ("An unstructured obligation sentence. With a second sentence after it.".toList) } :=
  ⟨(c3_parse_strategy_cascade ("a\n1. first block\n2. second block".toList)).1 (by decide),
   (c3_parse_strategy_cascade ("a\n**Mandate: one\n**Mandate: two".toList)).2.1
     (by decide) (by decide),
   (c3_parse_strategy_cascade ("plain text with no markers at all".toList)).2.2.1
     (by decide) (by decide),
   (c3_parse_strategy_cascade ("a\n1. first block\n2. second block".toList)).2.2.2.1 (by decide),
   (c3_parse_strategy_cascade []).2.2.2.2
     ("An unstructured obligation sentence. With a second sentence after it.".toList)
     (by decide) (by decide)⟩

/-- C10 counterexample. A block whose Category label is followed only by
whitespace parses to a mandate whose category is the empty string: the
regex group captures the whitespace and stripping empties it, so the
category field is not always non-empty. -/
theorem c10_empty_category_cex :
    (parseMandates
      ("**Mandate:** Keep complete records of all executed trades\n**Category:** ".toList)).length
        = 1 ∧
    (parseMandates
      ("**Mandate:** Keep complete records of all executed trades\n**Category:** ".toList)).any
        (fun m => m.category.isEmpty) = true := by
  refine ⟨by decide, by decide⟩

theorem parseBlock_full_text (b : Str) : (parseBlock b).full_text = stripL b := by
  unfold parseBlock
  by_cases h : ((titleG b).isSome || (requirementG b).isSome) = true
  · rw [if_pos h]
  · rw [if_neg h]

theorem parseBlock_category (b : Str) :
    (parseBlock b).category = "Uncategorized".toList ∨
      ∃ g, categoryG b = some g ∧ (parseBlock b).category = stripL g := by
  unfold parseBlock
  by_cases h : ((titleG b).isSome || (requirementG b).isSome) = true
  · rw [if_pos h]
    cases hc : categoryG b with
    | none => left; simp
    | some g => right; exact ⟨g, rfl, by simp⟩
  · rw [if_neg h]
    left
    rfl

/-- C10 amended. Every mandate returned by the parser comes from a selected
block whose stripped text reaches 50 characters; its full_text equals that
stripped block, so has length at least 50; its category is either the
Uncategorized default or the stripped text of the matched Category group,
which is empty whenever only whitespace follows the label; and in the
unstructured fallback (no locatable title or requirement field) specifics
is the empty string and category is the Uncategorized default. -/
theorem c10_mandate_invariants (text : Str) (m : MandateB)
    (hm : m ∈ parseMandates text) :
    ∃ b, b ∈ selectBlocks text ∧ 50 ≤ (stripL b).length ∧ m = parseBlock b ∧
      m.full_text = stripL b ∧ 50 ≤ m.full_text.length ∧
      (m.category = "Uncategorized".toList ∨
        ∃ g, categoryG b = some g ∧ m.category = stripL g) ∧
      ((titleG b).isSome = false → (requirementG b).isSome = false →
        m.specifics = [] ∧ m.category = "Uncategorized".toList) := by
  unfold parseMandates at hm
  by_cases hs : hasSub sentinelStr text = true
  · rw [if_pos hs] at hm
    cases hm
  · rw [if_neg hs, parseBlocksLoop_eq_filter] at hm
    obtain ⟨b, hb, hmb⟩ := List.mem_map.mp hm
    obtain ⟨hbsel, hblen⟩ := List.mem_filter.mp hb
    have hlen : 50 ≤ (stripL b).length := by simpa using hblen
    refine ⟨b, hbsel, hlen, hmb.symm, ?_, ?_, ?_, ?_⟩
    · rw [← hmb]; exact parseBlock_full_text b
    · rw [← hmb, parseBlock_full_text b]; exact hlen
    · rw [← hmb]; exact parseBlock_category b
    · intro ht hr
      rw [← hmb]
      unfold parseBlock
      rw [if_neg (by simp [ht, hr])]
      exact ⟨rfl, rfl⟩

theorem c10_mandate_invariants_witness :
    ∃ b, b ∈ selectBlocks
        ("**Mandate:** Keep records\n**Requirement:** Firms must retain all records for five years.".toList) ∧
      50 ≤ (stripL b).length ∧
      (parseMandates
        ("**Mandate:** Keep records\n**Requirement:** Firms must retain all records for five years.".toList)).headI
        = parseBlock b ∧
      (parseMandates
        ("**Mandate:** Keep records\n**Requirement:** Firms must retain all records for five years.".toList)).headI.full_text
        = stripL b ∧
      50 ≤ (parseMandates
        ("**Mandate:** Keep records\n**Requirement:** Firms must retain all records for five years.".toList)).headI.full_text.length ∧
      ((parseMandates
        ("**Mandate:** Keep records\n**Requirement:** Firms must retain all records for five years.".toList)).headI.category
          = "Uncategorized".toList ∨
        ∃ g, categoryG b = some g ∧
          (parseMandates
            ("**Mandate:** Keep records\n**Requirement:** Firms must retain all records for five years.".toList)).headI.category
            = stripL g) ∧
      ((titleG b).isSome = false → (requirementG b).isSome = false →
        (parseMandates
          ("**Mandate:** Keep records\n**Requirement:** Firms must retain all records for five years.".toList)).headI.specifics
          = [] ∧
        (parseMandates
          ("**Mandate:** Keep records\n**Requirement:** Firms must retain all records for five years.".toList)).headI.category
          = "Uncategorized".toList) :=
  c10_mandate_invariants
    ("**Mandate:** Keep records\n**Requirement:** Firms must retain all records for five years.".toList)
    ((parseMandates
      ("**Mandate:** Keep records\n**Requirement:** Firms must retain all records for five years.".toList)).headI)
    (by decide)

theorem auditorLoop_length (gen : Nat → Str → Except Str Str) (embed : Str → List Int)
    (chunks : List Str) (stored : List (List Int)) :
    ∀ (idx : Nat) (ms : List MandateB),
      (auditorLoop gen embed chunks stored idx ms).length = ms.length := by
  intro idx ms
  induction ms generalizing idx with
  | nil => rfl
  | cons m rest ih => simp [auditorLoop, ih]

theorem auditorLoop_getElem? (gen : Nat → Str → Except Str Str) (embed : Str → List Int)
    (chunks : List Str) (stored : List (List Int)) :
    ∀ (ms : List MandateB) (idx i : Nat) (m : MandateB), ms[i]? = some m →
      (auditorLoop gen embed chunks stored idx ms)[i]? =
        some (findingFor gen (contextFor chunks stored (embed (queryOf m))) (idx + i) m) := by
  intro ms
  induction ms with
  | nil => intro idx i m h; simp at h
  | cons m0 rest ih =>
    intro idx i m h
    cases i with
    | zero =>
      simp only [List.getElem?_cons_zero, Option.some.injEq] at h
      subst h
      simp [auditorLoop]
    | succ n =>
      simp only [List.getElem?_cons_succ] at h
      have := ih (idx + 1) n m h
      simp only [auditorLoop, List.getElem?_cons_succ]
      rw [this]
      have e : idx + 1 + n = idx + (n + 1) := by omega
      rw [e]

/-- C1. The Gap Analyzer loop yields exactly one finding per mandate, in
extraction order: a reply of at least 50 stripped characters gives the full
finding with that reply, a shorter or empty reply gives a finding carrying
the explicit insufficient-analysis error, and a raised exception gives the
explicit per-mandate error record without stopping the loop; when the run
reaches the loop, its output is those findings joined by blank lines, with
one generation call per mandate. -/
theorem c1_one_finding_per_mandate (gen : Nat → Str → Except Str Str)
    (embed : Str → List Int) (chunks : List Str) (stored : List (List Int))
    (idx : Nat) (ms : List MandateB) :
    (auditorLoop gen embed chunks stored idx ms).length = ms.length ∧
    (∀ i m, ms[i]? = some m →
      (∀ r, gen (idx + i) (contextFor chunks stored (embed (queryOf m))) = .ok r →
        50 ≤ (stripL r).length →
        (auditorLoop gen embed chunks stored idx ms)[i]? =
          some (fullFinding (idx + i) m r)) ∧
      (∀ r, gen (idx + i) (contextFor chunks stored (embed (queryOf m))) = .ok r →
        (stripL r).length < 50 →
        (auditorLoop gen embed chunks stored idx ms)[i]? =
          some (fullFinding (idx + i) m insufficientMsg) ∧
        insufficientMsg <:+: fullFinding (idx + i) m insufficientMsg) ∧
      (∀ e, gen (idx + i) (contextFor chunks stored (embed (queryOf m))) = .error e →
        (auditorLoop gen embed chunks stored idx ms)[i]? =
          some (errFinding (idx + i) m e))) ∧
    (∀ text, text.isEmpty = false → 50 ≤ (stripL text).length →
      hasSub ("Error".toList) (text.take 100) = false →
      hasSub sentinelStr text = false → parseMandates text ≠ [] →
      auditorRun gen embed chunks stored text =
        (joinSep ("\n\n".toList) (auditorLoop gen embed chunks stored 1 (parseMandates text)),
          (parseMandates text).length)) := by
  refine ⟨auditorLoop_length gen embed chunks stored idx ms, ?_, ?_⟩
  · intro i m hm
    have hget := auditorLoop_getElem? gen embed chunks stored ms idx i m hm
    refine ⟨?_, ?_, ?_⟩
    · intro r hr hlen
      rw [hget]
      unfold findingFor
      rw [hr]
      have hne : r.isEmpty = false := by
        cases r with
        | nil => simp [stripL] at hlen
        | cons c cs => rfl
      have hcond : (r.isEmpty || decide ((stripL r).length < 50)) = false := by
        simp [hne]; omega
      simp [hcond]
    · intro r hr hlen
      constructor
      · rw [hget]
        unfold findingFor
        rw [hr]
        have hcond : (r.isEmpty || decide ((stripL r).length < 50)) = true := by
          simp [hlen]
        simp [hcond]
      · exact ⟨('\n' :: eqLine) ++ ("\nMANDATE ".toList) ++ natStr (idx + i) ++ (": ".toList) ++
          m.title ++ ('\n' :: eqLine) ++ ("\n\n**Category:** ".toList) ++ m.category ++
          ("\n\n**Regulatory Requirement:**\n".toList) ++ m.requirement ++
          ("\n\n**Specifics:**\n".toList) ++ m.specifics ++
          ("\n\n**GAP ANALYSIS:**\n".toList), ['\n'],
          by simp [fullFinding, List.append_assoc]⟩
    · intro e he
      rw [hget]
      unfold findingFor
      rw [he]
  · intro text hemp hlen herr hsent hne
    unfold auditorRun
    rw [if_neg (by simp [hemp]; omega)]
    rw [if_neg (by rw [herr]; simp)]
    rw [if_neg (by rw [hsent]; simp)]
    rw [if_neg (by simp [List.isEmpty_iff, hne])]

set_option maxRecDepth 100000 in
theorem c1_one_finding_per_mandate_witness :
    (auditorLoop (fun _ _ => Except.error ("boom".toList)) (fun _ => ([] : List Int)) [] [] 1
      [⟨"M one".toList, [], [], [], []⟩, ⟨"M two".toList, [], [], [], []⟩]).length = 2 ∧
    (auditorLoop
      (fun _ _ => Except.ok
        ("This reply is long enough to count as a full fifty character analysis result.".toList))
      (fun _ => ([] : List Int)) [] [] 1 [⟨"M one".toList, [], [], [], []⟩])[0]? =
      some (fullFinding 1 ⟨"M one".toList, [], [], [], []⟩
        ("This reply is long enough to count as a full fifty character analysis result.".toList)) ∧
    (auditorLoop (fun _ _ => Except.ok ("tiny".toList)) (fun _ => ([] : List Int)) [] [] 1
      [⟨"M one".toList, [], [], [], []⟩])[0]? =
      some (fullFinding 1 ⟨"M one".toList, [], [], [], []⟩ insufficientMsg) ∧
    insufficientMsg <:+: fullFinding 1 ⟨"M one".toList, [], [], [], []⟩ insufficientMsg ∧
    (auditorLoop (fun _ _ => Except.error ("boom".toList)) (fun _ => ([] : List Int)) [] [] 1
      [⟨"M one".toList, [], [], [], []⟩, ⟨"M two".toList, [], [], [], []⟩])[1]? =
      some (errFinding 2 ⟨"M two".toList, [], [], [], []⟩ ("boom".toList)) ∧
    auditorRun (fun _ _ => Except.error ("boom".toList)) (fun _ => ([] : List Int)) [] []
      ("Intro words\n1. **Mandate:** File reports\n**Requirement:** Companies must file annual reports on time.\n2. **Mandate:** Keep records\n**Requirement:** Companies must keep complete records for five years.".toList) =
      (joinSep ("\n\n".toList) (auditorLoop (fun _ _ => Except.error ("boom".toList))
        (fun _ => ([] : List Int)) [] [] 1 (parseMandates
          ("Intro words\n1. **Mandate:** File reports\n**Requirement:** Companies must file annual reports on time.\n2. **Mandate:** Keep records\n**Requirement:** Companies must keep complete records for five years.".toList))),
        (parseMandates
          ("Intro words\n1. **Mandate:** File reports\n**Requirement:** Companies must file annual reports on time.\n2. **Mandate:** Keep records\n**Requirement:** Companies must keep complete records for five years.".toList)).length) := by
  refine ⟨?_, ?_, ?_, ?_, ?_, ?_⟩
  · exact ((c1_one_finding_per_mandate (fun _ _ => Except.error ("boom".toList))
      (fun _ => ([] : List Int)) [] [] 1
      [⟨"M one".toList, [], [], [], []⟩, ⟨"M two".toList, [], [], [], []⟩]).1).trans (by decide)
  · exact ((c1_one_finding_per_mandate
      (fun _ _ => Except.ok
        ("This reply is long enough to count as a full fifty character analysis result.".toList))
      (fun _ => ([] : List Int)) [] [] 1 [⟨"M one".toList, [], [], [], []⟩]).2.1 0
        ⟨"M one".toList, [], [], [], []⟩ rfl).1
      ("This reply is long enough to count as a full fifty character analysis result.".toList)
      rfl (by decide)
  · exact (((c1_one_finding_per_mandate (fun _ _ => Except.ok ("tiny".toList))
      (fun _ => ([] : List Int)) [] [] 1 [⟨"M one".toList, [], [], [], []⟩]).2.1 0
        ⟨"M one".toList, [], [], [], []⟩ rfl).2.1 ("tiny".toList) rfl (by decide)).1
  · exact (((c1_one_finding_per_mandate (fun _ _ => Except.ok ("tiny".toList))
      (fun _ => ([] : List Int)) [] [] 1 [⟨"M one".toList, [], [], [], []⟩]).2.1 0
        ⟨"M one".toList, [], [], [], []⟩ rfl).2.1 ("tiny".toList) rfl (by decide)).2
  · exact ((c1_one_finding_per_mandate (fun _ _ => Except.error ("boom".toList))
      (fun _ => ([] : List Int)) [] [] 1
      [⟨"M one".toList, [], [], [], []⟩, ⟨"M two".toList, [], [], [], []⟩]).2.1 1
        ⟨"M two".toList, [], [], [], []⟩ rfl).2.2 ("boom".toList) rfl
  · exact (c1_one_finding_per_mandate (fun _ _ => Except.error ("boom".toList))
      (fun _ => ([] : List Int)) [] [] 1 []).2.2
      ("Intro words\n1. **Mandate:** File reports\n**Requirement:** Companies must file annual reports on time.\n2. **Mandate:** Keep records\n**Requirement:** Companies must keep complete records for five years.".toList)
      (by decide) (by decide) (by decide) (by decide) (by decide)
